import Mathlib

/-!
Shallow embedding of the gmana-cli password generator core
(`src/lib/password-generator.ts`), its history persistence logic
(`src/lib/history.ts`, pure list core), and the history-listing password
mask (`src/commands/history.ts`).

Strings of the TypeScript source are modelled as `List Char`.  The
cryptographically secure random-integer source `crypto.randomInt(0, n)`
is modelled as an explicit function `rng : Nat → Nat → Nat`, where
`rng i n` is the value drawn at loop iteration `i` with exclusive upper
bound `n`; the guarantee that `crypto.randomInt(0, n)` lies in `[0, n)`
is the predicate `ValidRNG`.
-/

/-- The validated options record produced by `PasswordOptionsSchema.parse`.
`length` is an integer constrained to `[4, 128]` by the schema (`min(4)`,
`max(128)`), modelled as `Nat` with the bound check in `validOptions`.
The schema supplies defaults, so the parsed record always has every field. -/
structure PasswordOptions where
  length : Nat
  includeUppercase : Bool
  includeLowercase : Bool
  includeNumbers : Bool
  includeSymbols : Bool
  includeExtraSymbols : Bool
  excludeSimilar : Bool
  excludeAmbiguous : Bool
  customChars : Option (List Char) := none
  pattern : Option (List Char) := none
deriving Repr, DecidableEq

/-- Source constant `PasswordGenerator.LOWERCASE = "abcdefghijklmnopqrstuvwxyz"`. -/
def LOWERCASE : List Char := "abcdefghijklmnopqrstuvwxyz".data

/-- Source constant `PasswordGenerator.UPPERCASE = "ABCDEFGHIJKLMNOPQRSTUVWXYZ"`. -/
def UPPERCASE : List Char := "ABCDEFGHIJKLMNOPQRSTUVWXYZ".data

/-- Source constant `PasswordGenerator.NUMBERS = "0123456789"`. -/
def NUMBERS : List Char := "0123456789".data

/-- Source constant `PasswordGenerator.SYMBOLS = "!@#$%^&*"`. -/
def SYMBOLS : List Char := "!@#$%^&*".data

/-- Source constant `PasswordGenerator.EXTRA_SYMBOLS = "()_+-=[]{}|;:,.<>?"` (the braces are
written with hex escapes). -/
def EXTRA_SYMBOLS : List Char := "()_+-=[]\x7b\x7d|;:,.<>?".data

/-- Source constant `PasswordGenerator.SIMILAR_CHARS = "il1Lo0O"`. -/
def SIMILAR_CHARS : List Char := "il1Lo0O".data

/-- Source constant `PasswordGenerator.AMBIGUOUS_CHARS`: the seventeen characters of the
source literal, in order: left brace, right brace, `[ ] ( ) / \`,
apostrophe (39), double quote (34), backtick (96), `~ , ; . < >`. -/
def AMBIGUOUS_CHARS : List Char :=
  [Char.ofNat 123, Char.ofNat 125] ++ "[]()/\\".data ++
    [Char.ofNat 39, Char.ofNat 34, Char.ofNat 96] ++ "~,;.<>".data

/-- The concatenation of the enabled character classes in the fixed source
order lowercase, uppercase, numbers, symbols, extra symbols — the state of
`buildCharset`'s `charset` accumulator before the exclusion filters. -/
def classConcat (o : PasswordOptions) : List Char :=
  (if o.includeLowercase then LOWERCASE else []) ++
  (if o.includeUppercase then UPPERCASE else []) ++
  (if o.includeNumbers then NUMBERS else []) ++
  (if o.includeSymbols then SYMBOLS else []) ++
  (if o.includeExtraSymbols then EXTRA_SYMBOLS else [])

/-- The schema bound on `length`: `z.number().int().min(4).max(128)`.
All other schema constraints are type constraints, which the `PasswordOptions`
structure enforces by construction. -/
def validOptions (o : PasswordOptions) : Bool :=
  4 ≤ o.length && o.length ≤ 128

/-- Source method `PasswordGenerator.buildCharset`: concatenate the enabled classes in
source order (lowercase, uppercase, numbers, symbols, extra symbols), then
filter out `SIMILAR_CHARS` when `excludeSimilar`, then filter out
`AMBIGUOUS_CHARS` when `excludeAmbiguous`. -/
def buildCharset (o : PasswordOptions) : List Char :=
  let cs := classConcat o
  let cs := if o.excludeSimilar
    then cs.filter (fun c => !(SIMILAR_CHARS.contains c)) else cs
  if o.excludeAmbiguous
    then cs.filter (fun c => !(AMBIGUOUS_CHARS.contains c)) else cs

/-- The well-formedness contract of `crypto.randomInt(0, n)`: every draw
with positive bound `n` lies in `[0, n)`. -/
def ValidRNG (rng : Nat → Nat → Nat) : Prop :=
  ∀ i n, 0 < n → rng i n < n

/-- Source method `PasswordGenerator.generateSecurePassword`: for each position
`i < length`, pick `charset[crypto.randomInt(0, charset.length)]`.
The source index is always in range by the `crypto.randomInt` contract;
`getD` with null-character default renders the same total function under
`ValidRNG`. -/
def generateSecurePassword (charset : List Char) (length : Nat)
    (rng : Nat → Nat → Nat) : List Char :=
  (List.range length).map (fun i => charset.getD (rng i charset.length) (Char.ofNat 0))

/-- The two error classes of `PasswordGenerator.generate`: a Zod
validation failure of the options schema, and the
`"No character types selected for password generation"` error thrown on an
empty charset. -/
inductive GenError where
  | validation
  | generation
deriving Repr, DecidableEq

/-- Source method `PasswordGenerator.generate`: parse the options against the schema
(`validOptions`); if `customChars` is truthy (present and non-empty) sample
from it verbatim (`generateFromCustomChars` delegates directly to
`generateSecurePassword`); otherwise build the class charset, fail when it
is empty, and sample from it. -/
def generate (o : PasswordOptions) (rng : Nat → Nat → Nat) :
    Except GenError (List Char) :=
  if validOptions o then
    match o.customChars with
    | some cs =>
      if cs.isEmpty then
        let charset := buildCharset o
        if charset.isEmpty then Except.error GenError.generation
        else Except.ok (generateSecurePassword charset o.length rng)
      else Except.ok (generateSecurePassword cs o.length rng)
    | none =>
      let charset := buildCharset o
      if charset.isEmpty then Except.error GenError.generation
      else Except.ok (generateSecurePassword charset o.length rng)
  else Except.error GenError.validation

/-- The pool `generate` actually samples from: the truthy (present and
non-empty) `customChars` string verbatim, otherwise the built charset. -/
def resolvedPool (o : PasswordOptions) : List Char :=
  match o.customChars with
  | some cs => if cs.isEmpty then buildCharset o else cs
  | none => buildCharset o

/-- The always-zero index source; satisfies `ValidRNG`. -/
def rng0 : Nat → Nat → Nat := fun _ _ => 0

/-- Schema defaults: length 12, the four main classes on, everything else
off, no custom characters. -/
def defaultOpts : PasswordOptions :=
  { length := 12, includeUppercase := true, includeLowercase := true,
    includeNumbers := true, includeSymbols := true,
    includeExtraSymbols := false, excludeSimilar := false,
    excludeAmbiguous := false }

/-- Schema-valid options with every character-class flag disabled and no
custom characters. -/
def allFalseOpts : PasswordOptions :=
  { length := 12, includeUppercase := false, includeLowercase := false,
    includeNumbers := false, includeSymbols := false,
    includeExtraSymbols := false, excludeSimilar := false,
    excludeAmbiguous := false }

/-- Schema-valid options carrying the custom pool `"ab"` and length 10. -/
def abOpts : PasswordOptions :=
  { length := 10, includeUppercase := true, includeLowercase := true,
    includeNumbers := true, includeSymbols := true,
    includeExtraSymbols := false, excludeSimilar := false,
    excludeAmbiguous := false, customChars := some ['a', 'b'] }

/-- Schema-valid options with the four main classes and `excludeSimilar`
on, no custom characters. -/
def simOpts : PasswordOptions :=
  { length := 12, includeUppercase := true, includeLowercase := true,
    includeNumbers := true, includeSymbols := true,
    includeExtraSymbols := false, excludeSimilar := true,
    excludeAmbiguous := false }

/-- Schema-valid options with `excludeSimilar` on and the custom pool
`"i"` — a pool consisting of a similar character. -/
def simCustomOpts : PasswordOptions :=
  { length := 4, includeUppercase := true, includeLowercase := true,
    includeNumbers := true, includeSymbols := true,
    includeExtraSymbols := false, excludeSimilar := true,
    excludeAmbiguous := false, customChars := some ['i'] }

/-- JavaScript regex `.` (no `s` flag): any character except the four
line terminators LF, CR, U+2028, U+2029. -/
def jsDot (c : Char) : Bool :=
  !(c == Char.ofNat 10) && !(c == Char.ofNat 13) &&
    !(c == Char.ofNat 8232) && !(c == Char.ofNat 8233)

/-- The repeat test `/(.)\1{2,}/.test(password)`: some character matched by
`.` is immediately followed by two further copies of itself. -/
def hasTripleRepeat : List Char → Bool
  | a :: b :: c :: rest =>
    (jsDot a && a == b && a == c) || hasTripleRepeat (b :: c :: rest)
  | _ => false

/-- Substring test: `pat` occurs as a contiguous run inside the list. -/
def hasSub (pat : List Char) : List Char → Bool
  | [] => pat.isEmpty
  | c :: rest => pat.isPrefixOf (c :: rest) || hasSub pat rest

/-- ASCII lowering, the effect of the regex `i` flag on the three ASCII
search patterns `123`, `abc`, `qwe`. -/
def asciiLower (c : Char) : Char :=
  if 'A' ≤ c && c ≤ 'Z' then Char.ofNat (c.toNat + 32) else c

/-- The sequence test `/123|abc|qwe/i.test(password)`. -/
def hasCommonSeq (p : List Char) : Bool :=
  let l := p.map asciiLower
  hasSub "123".data l || hasSub "abc".data l || hasSub "qwe".data l

/-- The character class of the symbol presence test
`/[!@#$%^&*()_+\-=\[\]{}|;:,.<>?]/` (braces written with hex escapes). -/
def SPECIAL_CLASS : List Char := "!@#$%^&*()_+-=[]\x7b\x7d|;:,.<>?".data

/-- Presence test `/[a-z]/.test(password)`. -/
def hasLower (p : List Char) : Bool := p.any (fun c => 'a' ≤ c && c ≤ 'z')

/-- Presence test `/[A-Z]/.test(password)`. -/
def hasUpper (p : List Char) : Bool := p.any (fun c => 'A' ≤ c && c ≤ 'Z')

/-- Presence test `/\d/.test(password)` (`\d` is exactly the ASCII digits). -/
def hasDigit (p : List Char) : Bool := p.any (fun c => '0' ≤ c && c ≤ '9')

/-- The special-character presence test of `calculateStrength`. -/
def hasSpecial (p : List Char) : Bool := p.any (fun c => SPECIAL_CLASS.contains c)

/-- Result record of `PasswordGenerator.calculateStrength`. -/
structure StrengthResult where
  score : Int
  level : String
  feedback : List String
deriving Repr, DecidableEq

/-- The level ladder of `calculateStrength`, checked from the highest
threshold down. -/
def levelOf (score : Int) : String :=
  if 90 ≤ score then "Very Strong"
  else if 75 ≤ score then "Strong"
  else if 60 ≤ score then "Good"
  else if 40 ≤ score then "Fair"
  else if 20 ≤ score then "Weak"
  else "Very Weak"

/-- The value of the source's local `score` variable after all `+=`/`-=`
steps of `calculateStrength`: the conditions of the steps never depend on
the accumulator, so the sequential mutation is the sum of the per-step
increments, in source order. -/
def strengthScoreRaw (password : List Char) : Int :=
  (if 12 ≤ password.length then 25
   else if 8 ≤ password.length then 15
   else if 6 ≤ password.length then 10
   else 0)
  + (if hasLower password then 15 else 0)
  + (if hasUpper password then 15 else 0)
  + (if hasDigit password then 15 else 0)
  + (if hasSpecial password then 20 else 0)
  - (if hasTripleRepeat password then 10 else 0)
  - (if hasCommonSeq password then 15 else 0)

/-- The value of the source's local `feedback` array after all `push`
steps of `calculateStrength`, as the concatenation of the per-step pushes
in source order. -/
def strengthFeedback (password : List Char) : List String :=
  (if 12 ≤ password.length then []
   else if 8 ≤ password.length then []
   else if 6 ≤ password.length then []
   else ["Password should be at least 8 characters long"])
  ++ (if hasLower password then [] else ["Add lowercase letters"])
  ++ (if hasUpper password then [] else ["Add uppercase letters"])
  ++ (if hasDigit password then [] else ["Add numbers"])
  ++ (if hasSpecial password then [] else ["Add special characters"])
  ++ (if hasTripleRepeat password then ["Avoid repeating characters"] else [])
  ++ (if hasCommonSeq password then ["Avoid common sequences"] else [])

/-- Source method `PasswordGenerator.calculateStrength`: the level is computed from the
pre-clamp score, the returned score is `Math.max(0, score)`. -/
def calculateStrength (password : List Char) : StrengthResult :=
  { score := max 0 (strengthScoreRaw password),
    level := levelOf (strengthScoreRaw password),
    feedback := strengthFeedback password }

/-- The options subset stored with a history entry
(`HistoryEntrySchema.options`). -/
structure HistoryOptions where
  length : Nat
  includeUppercase : Bool
  includeLowercase : Bool
  includeNumbers : Bool
  includeSymbols : Bool
  includeExtraSymbols : Bool
deriving Repr, DecidableEq

/-- A history entry (`HistoryEntrySchema`). -/
structure HistoryEntry where
  id : String
  password : List Char
  options : HistoryOptions
  createdAt : String
deriving Repr, DecidableEq

/-- The pure list core of `saveToHistory` in `src/lib/history.ts`:
`history.unshift(entry)` followed by `history.slice(0, 100)` is
`((entry :: history).take 100)`; the result is what `fs.writeJson`
persists.  The filesystem plumbing (`ensureDir`, `writeJson`) and the
entry construction (UUID, timestamp) are I/O and are not modelled. -/
def saveToHistory (entry : HistoryEntry) (history : List HistoryEntry) :
    List HistoryEntry :=
  (entry :: history).take 100

/-- The bullet character `U+2022` used by the history password mask. -/
def bulletChar : Char := Char.ofNat 8226

/-- Source function `maskPassword` in `src/commands/history.ts`: passwords of length at
most 4 become four bullets; otherwise `substring(0, 2)`, then
`"•".repeat(length - 4)`, then `substring(length - 2)`. -/
def maskPassword (password : List Char) : List Char :=
  if password.length ≤ 4 then List.replicate 4 bulletChar
  else password.take 2 ++ List.replicate (password.length - 4) bulletChar
    ++ password.drop (password.length - 2)

/-- Modelled from the spec: "any character repeats 3-or-more times
consecutively" with no restriction on which character, as the claim words
the repeat penalty (the code's regex dot excludes line terminators). -/
def anyCharTriple : List Char → Bool
  | a :: b :: c :: rest => (a == b && a == c) || anyCharTriple (b :: c :: rest)
  | _ => false

/-- Modelled from the spec: the score exactly as the claim words it — the
sum of the length term, the class presence terms and the two penalties
(repeat penalty for any character), with no lower clamp. -/
def claimedScore (p : List Char) : Int :=
  (if 12 ≤ p.length then 25
   else if 8 ≤ p.length then 15
   else if 6 ≤ p.length then 10
   else 0)
  + (if hasLower p then 15 else 0)
  + (if hasUpper p then 15 else 0)
  + (if hasDigit p then 15 else 0)
  + (if hasSpecial p then 20 else 0)
  - (if anyCharTriple p then 10 else 0)
  - (if hasCommonSeq p then 15 else 0)

/-! ### Helper lemmas -/

theorem isEmpty_false_of_ne {l : List Char} (h : l ≠ []) : l.isEmpty = false := by
  cases l with
  | nil => exact absurd rfl h
  | cons a t => rfl

theorem ne_nil_of_isEmpty_false {l : List Char} (h : l.isEmpty = false) : l ≠ [] := by
  cases l with
  | nil => simp at h
  | cons a t => simp

theorem getD_mem_of_lt {l : List Char} {i : Nat} (h : i < l.length) (d : Char) :
    l.getD i d ∈ l := by
  rw [List.getD_eq_getElem l d h]
  exact List.getElem_mem h

theorem gsp_length (charset : List Char) (len : Nat) (rng : Nat → Nat → Nat) :
    (generateSecurePassword charset len rng).length = len := by
  simp [generateSecurePassword]

theorem gsp_mem {charset : List Char} (hne : charset ≠ []) {rng : Nat → Nat → Nat}
    (hrng : ValidRNG rng) (len : Nat) :
    ∀ c ∈ generateSecurePassword charset len rng, c ∈ charset := by
  intro c hc
  unfold generateSecurePassword at hc
  rw [List.mem_map] at hc
  obtain ⟨i, _, rfl⟩ := hc
  exact getD_mem_of_lt (hrng i charset.length (List.length_pos.mpr hne)) _

theorem rng0_valid : ValidRNG rng0 := fun _ _ h => h

/-- Equation lemma: `generate` routed through `resolvedPool`: validate, fail on an empty
pool, otherwise sample from the pool. -/
theorem generate_eq (o : PasswordOptions) (rng : Nat → Nat → Nat) :
    generate o rng =
      if validOptions o then
        if (resolvedPool o).isEmpty then Except.error GenError.generation
        else Except.ok (generateSecurePassword (resolvedPool o) o.length rng)
      else Except.error GenError.validation := by
  unfold generate resolvedPool
  cases h : o.customChars with
  | none => rfl
  | some cs =>
    cases hcs : cs.isEmpty with
    | true =>
      have : cs = [] := by cases cs with | nil => rfl | cons a t => simp at hcs
      subst this
      rfl
    | false =>
      cases ht : cs with
      | nil => rw [ht] at hcs; simp at hcs
      | cons a t => rfl

theorem buildCharset_eq (o : PasswordOptions) :
    buildCharset o =
      (if o.excludeAmbiguous then
        (if o.excludeSimilar
          then (classConcat o).filter (fun c => !(SIMILAR_CHARS.contains c))
          else classConcat o).filter (fun c => !(AMBIGUOUS_CHARS.contains c))
      else
        (if o.excludeSimilar
          then (classConcat o).filter (fun c => !(SIMILAR_CHARS.contains c))
          else classConcat o)) := rfl

theorem buildCharset_sublist (o : PasswordOptions) :
    List.Sublist (buildCharset o) (classConcat o) := by
  rw [buildCharset_eq]
  cases o.excludeAmbiguous <;> cases o.excludeSimilar <;> simp

theorem buildCharset_no_similar {o : PasswordOptions} (hs : o.excludeSimilar = true) :
    ∀ c ∈ buildCharset o, SIMILAR_CHARS.contains c = false := by
  intro c hc
  rw [buildCharset_eq] at hc
  cases ha : o.excludeAmbiguous with
  | true =>
    simp only [hs, ha, if_true] at hc
    have hc2 := (List.mem_filter.mp hc).1
    have := (List.mem_filter.mp hc2).2
    simpa using this
  | false =>
    simp only [hs, ha, Bool.false_eq_true, if_true, if_false] at hc
    have := (List.mem_filter.mp hc).2
    simpa using this

theorem buildCharset_no_ambiguous {o : PasswordOptions} (ha : o.excludeAmbiguous = true) :
    ∀ c ∈ buildCharset o, AMBIGUOUS_CHARS.contains c = false := by
  intro c hc
  rw [buildCharset_eq] at hc
  simp only [ha, if_true] at hc
  have := (List.mem_filter.mp hc).2
  simpa using this

theorem buildCharset_allFalse {o : PasswordOptions}
    (h1 : o.includeLowercase = false) (h2 : o.includeUppercase = false)
    (h3 : o.includeNumbers = false) (h4 : o.includeSymbols = false)
    (h5 : o.includeExtraSymbols = false) : buildCharset o = [] := by
  have hc : classConcat o = [] := by
    simp [classConcat, h1, h2, h3, h4, h5]
  rw [buildCharset_eq, hc]
  cases o.excludeAmbiguous <;> cases o.excludeSimilar <;> simp

theorem strengthScoreRaw_le_90 (p : List Char) : strengthScoreRaw p ≤ 90 := by
  unfold strengthScoreRaw
  split_ifs <;> omega

theorem calculateStrength_score_spec (p : List Char) :
    (calculateStrength p).score = max 0 (strengthScoreRaw p) := rfl

theorem levelOf_clamp (s : Int) : levelOf s = levelOf (max 0 s) := by
  rcases le_or_lt 0 s with h | h
  · rw [max_eq_right h]
  · rw [max_eq_left h.le]
    unfold levelOf
    split_ifs <;> first | rfl | omega

theorem hasSub_iff (pat : List Char) : ∀ l : List Char, hasSub pat l = true ↔ pat <:+: l
  | [] => by
    rw [hasSub]
    constructor
    · intro h
      have : pat = [] := by simpa [List.isEmpty_iff] using h
      simp [this]
    · intro h
      have : pat = [] := List.infix_nil.mp h
      simp [this]
  | c :: rest => by
    rw [hasSub]
    rw [Bool.or_eq_true, List.isPrefixOf_iff_prefix, hasSub_iff pat rest,
      List.infix_cons_iff]

theorem tripleRepeat_nil : hasTripleRepeat [] = false := rfl

theorem tripleRepeat_one (a : Char) : hasTripleRepeat [a] = false := rfl

theorem tripleRepeat_two (a b : Char) : hasTripleRepeat [a, b] = false := rfl

theorem tripleRepeat_cons (a b c : Char) (rest : List Char) :
    hasTripleRepeat (a :: b :: c :: rest) =
      ((jsDot a && a == b && a == c) || hasTripleRepeat (b :: c :: rest)) := rfl

theorem hasTripleRepeat_iff : ∀ l : List Char,
    hasTripleRepeat l = true ↔
      ∃ c pre suf, jsDot c = true ∧ l = pre ++ c :: c :: c :: suf
  | [] => by
    rw [tripleRepeat_nil]
    simp only [Bool.false_eq_true, false_iff]
    rintro ⟨c, pre, suf, -, h⟩
    have := congrArg List.length h
    simp [List.length_append] at this
    omega
  | [a] => by
    rw [tripleRepeat_one]
    simp only [Bool.false_eq_true, false_iff]
    rintro ⟨c, pre, suf, -, h⟩
    have := congrArg List.length h
    simp [List.length_append] at this
    omega
  | [a, b] => by
    rw [tripleRepeat_two]
    simp only [Bool.false_eq_true, false_iff]
    rintro ⟨c, pre, suf, -, h⟩
    have := congrArg List.length h
    simp [List.length_append] at this
    omega
  | a :: b :: c :: rest => by
    rw [tripleRepeat_cons, Bool.or_eq_true, hasTripleRepeat_iff (b :: c :: rest)]
    constructor
    · rintro (h | ⟨x, pre, suf, hx, heq⟩)
      · rw [Bool.and_eq_true, Bool.and_eq_true] at h
        obtain ⟨⟨hd, hab⟩, hac⟩ := h
        have hab' : a = b := by simpa using hab
        have hac' : a = c := by simpa using hac
        exact ⟨a, [], rest, hd, by simp [← hab', ← hac']⟩
      · exact ⟨x, a :: pre, suf, hx, by simp [heq]⟩
    · rintro ⟨x, pre, suf, hx, heq⟩
      cases pre with
      | nil =>
        simp only [List.nil_append, List.cons.injEq] at heq
        obtain ⟨rfl, rfl, rfl, rfl⟩ := heq
        left
        simp [hx]
      | cons p ps =>
        simp only [List.cons_append, List.cons.injEq] at heq
        obtain ⟨rfl, hrest⟩ := heq
        exact Or.inr ⟨x, ps, suf, hx, hrest⟩

theorem hasLower_iff (p : List Char) :
    hasLower p = true ↔ ∃ c ∈ p, 'a' ≤ c ∧ c ≤ 'z' := by
  simp [hasLower, List.any_eq_true]

theorem hasUpper_iff (p : List Char) :
    hasUpper p = true ↔ ∃ c ∈ p, 'A' ≤ c ∧ c ≤ 'Z' := by
  simp [hasUpper, List.any_eq_true]

theorem hasDigit_iff (p : List Char) :
    hasDigit p = true ↔ ∃ c ∈ p, '0' ≤ c ∧ c ≤ '9' := by
  simp [hasDigit, List.any_eq_true]

theorem hasSpecial_iff (p : List Char) :
    hasSpecial p = true ↔ ∃ c ∈ p, c ∈ SPECIAL_CLASS := by
  simp [hasSpecial, List.any_eq_true]

theorem hasCommonSeq_iff (p : List Char) :
    hasCommonSeq p = true ↔
      ("123".data <:+: p.map asciiLower ∨ "abc".data <:+: p.map asciiLower ∨
        "qwe".data <:+: p.map asciiLower) := by
  simp [hasCommonSeq, Bool.or_eq_true, hasSub_iff]
  tauto

theorem resolvedPool_none {o : PasswordOptions} (h : o.customChars = none) :
    resolvedPool o = buildCharset o := by
  unfold resolvedPool
  rw [h]

theorem resolvedPool_emptyCustom {o : PasswordOptions} (h : o.customChars = some []) :
    resolvedPool o = buildCharset o := by
  unfold resolvedPool
  rw [h]
  rfl

theorem resolvedPool_ne_of_build_ne {o : PasswordOptions} (h : buildCharset o ≠ []) :
    resolvedPool o ≠ [] := by
  unfold resolvedPool
  cases hc : o.customChars with
  | none => exact h
  | some cs =>
    cases hcs : cs.isEmpty with
    | true => simpa [hcs] using h
    | false =>
      simp only [hcs, Bool.false_eq_true, if_false]
      exact ne_nil_of_isEmpty_false hcs

/-! ### Claim theorems -/

/-- C1 (amended: restricted to options whose resolved sampling pool is
non-empty; `generate` raises rather than returns on an empty pool): for
every schema-accepted options value with a non-empty resolved pool and
every index source meeting the `crypto.randomInt` contract, `generate`
returns a string of exactly `options.length` characters, and every
character of the result is an element of the resolved sampling pool (the
non-empty `customChars` string when present, otherwise the built
charset). -/
theorem generate_ok_length_and_pool_membership
    (o : PasswordOptions) (rng : Nat → Nat → Nat)
    (hrng : ValidRNG rng) (hv : validOptions o = true) (hp : resolvedPool o ≠ []) :
    generate o rng = Except.ok (generateSecurePassword (resolvedPool o) o.length rng)
    ∧ (generateSecurePassword (resolvedPool o) o.length rng).length = o.length
    ∧ ∀ c ∈ generateSecurePassword (resolvedPool o) o.length rng,
        c ∈ resolvedPool o := by
  refine ⟨?_, gsp_length _ _ _, gsp_mem hp hrng _⟩
  rw [generate_eq]
  simp [hv, isEmpty_false_of_ne hp]

/-- Witness for C1's theorem at the schema defaults and the zero index
source. -/
theorem generate_ok_length_witness :
    generate defaultOpts rng0 =
      Except.ok (generateSecurePassword (resolvedPool defaultOpts) 12 rng0)
    ∧ (generateSecurePassword (resolvedPool defaultOpts) 12 rng0).length = 12 := by
  have h := generate_ok_length_and_pool_membership defaultOpts rng0 rng0_valid
    (by decide) (by decide)
  exact ⟨h.1, h.2.1⟩

/-- C1 counterexample: on the schema-accepted options with every class flag
false and no custom characters, `generate` raises the empty-charset error
and returns no string at all, refuting the unconditional claim that it
returns a string of `options.length` characters for every schema-accepted
options value. -/
theorem generate_allFalse_returns_no_string :
    validOptions allFalseOpts = true
    ∧ generate allFalseOpts rng0 = Except.error GenError.generation
    ∧ (generate allFalseOpts rng0).toOption = none := by
  exact ⟨by decide, rfl, rfl⟩

/-- C2: `generate` raises an error iff the options fail the schema bounds
(the validation error class) or the resolved charset is empty (the
generation error class); for schema-valid options whose built charset
survives filtering non-empty it never raises the generation error, and for
schema-valid options with all class flags false and no `customChars` it
raises the generation error. -/
theorem generate_error_iff (o : PasswordOptions) (rng : Nat → Nat → Nat) :
    ((∃ e, generate o rng = Except.error e) ↔
      (validOptions o = false ∨ resolvedPool o = []))
    ∧ (generate o rng = Except.error GenError.validation ↔ validOptions o = false)
    ∧ (validOptions o = true → buildCharset o ≠ [] →
        ∃ pw, generate o rng = Except.ok pw)
    ∧ (validOptions o = true → o.includeLowercase = false →
        o.includeUppercase = false → o.includeNumbers = false →
        o.includeSymbols = false → o.includeExtraSymbols = false →
        o.customChars = none → generate o rng = Except.error GenError.generation) := by
  have ge := generate_eq o rng
  cases hv : validOptions o with
  | false =>
    rw [hv] at ge
    simp only [Bool.false_eq_true, if_false] at ge
    refine ⟨⟨fun _ => Or.inl rfl, fun _ => ⟨GenError.validation, ge⟩⟩, by simp [ge], ?_, ?_⟩
    · intro h
      simp at h
    · intro h
      simp at h
  | true =>
    rw [hv] at ge
    simp only [if_true] at ge
    cases hp : (resolvedPool o).isEmpty with
    | true =>
      rw [hp] at ge
      simp only [if_true] at ge
      have hpe : resolvedPool o = [] := by
        cases hq : resolvedPool o with
        | nil => rfl
        | cons a t => rw [hq] at hp; simp at hp
      refine ⟨⟨fun _ => Or.inr hpe, fun _ => ⟨GenError.generation, ge⟩⟩, ?_, ?_, ?_⟩
      · rw [ge]
        simp [hv]
      · intro _ hb
        exact absurd hpe (resolvedPool_ne_of_build_ne hb)
      · intro _ _ _ _ _ _ _
        exact ge
    | false =>
      rw [hp] at ge
      simp only [Bool.false_eq_true, if_false] at ge
      have hpn : resolvedPool o ≠ [] := ne_nil_of_isEmpty_false hp
      refine ⟨?_, ?_, ?_, ?_⟩
      · constructor
        · rintro ⟨e, he⟩
          rw [ge] at he
          exact absurd he (by simp)
        · rintro (h | h)
          · cases h
          · exact absurd h hpn
      · rw [ge]
        simp [hv]
      · intro _ _
        exact ⟨_, ge⟩
      · intro _ h1 h2 h3 h4 h5 hc
        have hb := buildCharset_allFalse h1 h2 h3 h4 h5
        have : resolvedPool o = [] := by rw [resolvedPool_none hc, hb]
        exact absurd this hpn

/-- Witness for C2's theorem: at the schema defaults, the
validation-error case of the iff. -/
theorem generate_error_iff_witness :
    generate defaultOpts rng0 = Except.error GenError.validation ↔
      validOptions defaultOpts = false :=
  (generate_error_iff defaultOpts rng0).2.1

/-- C5: when `customChars` is present and non-empty, `generate` samples
from the custom string verbatim (duplicates included), bypassing charset
construction; the class and exclusion flags have no effect on the result;
and with custom pool `"ab"` every character of the result is `'a'` or
`'b'`. -/
theorem generate_customChars_verbatim
    (o oo : PasswordOptions) (rng : Nat → Nat → Nat) (cs : List Char)
    (h : o.customChars = some cs) (hne : cs ≠ []) :
    (generate o rng = if validOptions o
      then Except.ok (generateSecurePassword cs o.length rng)
      else Except.error GenError.validation)
    ∧ (oo.length = o.length → oo.customChars = o.customChars →
        generate oo rng = generate o rng)
    ∧ (ValidRNG rng → ∀ pw, generate o rng = Except.ok pw → ∀ c ∈ pw, c ∈ cs)
    ∧ (cs = ['a', 'b'] → ValidRNG rng → ∀ pw, generate o rng = Except.ok pw →
        ∀ c ∈ pw, c = 'a' ∨ c = 'b') := by
  have hpool : resolvedPool o = cs := by
    simp [resolvedPool, h, isEmpty_false_of_ne hne]
  have key : generate o rng = if validOptions o
      then Except.ok (generateSecurePassword cs o.length rng)
      else Except.error GenError.validation := by
    rw [generate_eq, hpool, isEmpty_false_of_ne hne]
    cases hv : validOptions o <;> simp
  have h3 : ValidRNG rng → ∀ pw, generate o rng = Except.ok pw →
      ∀ c ∈ pw, c ∈ cs := by
    intro hrng pw hpw c hc
    rw [key] at hpw
    cases hv : validOptions o with
    | false => rw [hv] at hpw; simp at hpw
    | true =>
      rw [hv] at hpw
      simp at hpw
      subst hpw
      exact gsp_mem hne hrng _ c hc
  refine ⟨key, ?_, h3, ?_⟩
  · intro hlen hcust
    have hpool2 : resolvedPool oo = cs := by
      simp [resolvedPool, hcust, h, isEmpty_false_of_ne hne]
    have hvv : validOptions oo = validOptions o := by
      unfold validOptions
      rw [hlen]
    have key2 : generate oo rng = if validOptions o
        then Except.ok (generateSecurePassword cs o.length rng)
        else Except.error GenError.validation := by
      rw [generate_eq, hpool2, isEmpty_false_of_ne hne, hvv, hlen]
      cases hv : validOptions o <;> simp
    rw [key2, key]
  · intro hcs hrng pw hpw c hc
    have := h3 hrng pw hpw c hc
    rw [hcs] at this
    simpa using this

/-- Witness for C5's theorem: the custom pool `"ab"` with length 10 and
the zero index source. -/
theorem generate_customChars_verbatim_witness :
    generate abOpts rng0 =
      (if validOptions abOpts
        then Except.ok (generateSecurePassword ['a', 'b'] abOpts.length rng0)
        else Except.error GenError.validation)
    ∧ ('a' = 'a' ∨ 'a' = 'b') :=
  ⟨(generate_customChars_verbatim abOpts abOpts rng0 ['a', 'b'] rfl (by decide)).1,
    (generate_customChars_verbatim abOpts abOpts rng0 ['a', 'b'] rfl
      (by decide)).2.2.2 rfl rng0_valid (List.replicate 10 'a') rfl 'a' (by decide)⟩

/-- C6 counterexample: options with `excludeSimilar := true` but custom
pool `"i"` — `generate` returns `"iiii"`, whose characters are all the
similar character `'i'`, refuting the claim for arbitrary options with
`excludeSimilar` set. -/
theorem excludeSimilar_customChars_counterexample :
    simCustomOpts.excludeSimilar = true
    ∧ generate simCustomOpts rng0 = Except.ok (List.replicate 4 'i')
    ∧ 'i' ∈ List.replicate 4 'i'
    ∧ SIMILAR_CHARS.contains 'i' = true :=
  ⟨rfl, rfl, by decide, by decide⟩

/-- C6 (amended: restricted to options without a truthy `customChars`,
which bypasses the exclusion filters): for every options value with
`excludeSimilar` set and absent-or-empty `customChars`, no character of a
successfully generated password is one of the seven similar characters
`i l 1 L o 0 O`. -/
theorem generate_excludeSimilar_no_similar
    (o : PasswordOptions) (rng : Nat → Nat → Nat) (pw : List Char)
    (hrng : ValidRNG rng) (hs : o.excludeSimilar = true)
    (hcc : o.customChars = none ∨ o.customChars = some [])
    (hok : generate o rng = Except.ok pw) :
    ∀ c ∈ pw, SIMILAR_CHARS.contains c = false := by
  intro c hc
  have hpool : resolvedPool o = buildCharset o := by
    rcases hcc with h | h
    · exact resolvedPool_none h
    · exact resolvedPool_emptyCustom h
  rw [generate_eq, hpool] at hok
  cases hv : validOptions o with
  | false => rw [hv] at hok; simp at hok
  | true =>
    rw [hv] at hok
    cases hb : (buildCharset o).isEmpty with
    | true => rw [hb] at hok; simp at hok
    | false =>
      rw [hb] at hok
      simp at hok
      subst hok
      exact buildCharset_no_similar hs c
        (gsp_mem (ne_nil_of_isEmpty_false hb) hrng _ c hc)

/-- Witness for C6's amended theorem at `simOpts` and the zero index
source. -/
theorem generate_excludeSimilar_witness :
    SIMILAR_CHARS.contains 'a' = false :=
  generate_excludeSimilar_no_similar simOpts rng0 (List.replicate 12 'a')
    rng0_valid rfl (Or.inl rfl) rfl 'a' (by decide)

/-- C7: the charset builder is the similar-chars filter followed by the
ambiguous-chars filter over the class concatenation (order-preserving
`List.filter`s, hence the result is a sublist of the concatenation and
survivors keep their relative order), and when a filter is enabled none
of its characters remain. The functions are pure, so identical options
always produce the identical pool. -/
theorem buildCharset_structure (o : PasswordOptions) :
    (buildCharset o =
      (if o.excludeAmbiguous then
        (if o.excludeSimilar
          then (classConcat o).filter (fun c => !(SIMILAR_CHARS.contains c))
          else classConcat o).filter (fun c => !(AMBIGUOUS_CHARS.contains c))
      else
        (if o.excludeSimilar
          then (classConcat o).filter (fun c => !(SIMILAR_CHARS.contains c))
          else classConcat o)))
    ∧ List.Sublist (buildCharset o) (classConcat o)
    ∧ (o.excludeSimilar = true →
        ∀ c ∈ buildCharset o, SIMILAR_CHARS.contains c = false)
    ∧ (o.excludeAmbiguous = true →
        ∀ c ∈ buildCharset o, AMBIGUOUS_CHARS.contains c = false) :=
  ⟨buildCharset_eq o, buildCharset_sublist o,
    fun hs => buildCharset_no_similar hs,
    fun ha => buildCharset_no_ambiguous ha⟩

/-- Witness for C7's theorem at `simOpts`: the similar-exclusion conjunct
applied to the surviving character `'z'`. -/
theorem buildCharset_structure_witness :
    SIMILAR_CHARS.contains 'z' = false :=
  (buildCharset_structure simOpts).2.2.1 rfl 'z' (by decide)

theorem mem_ite_nil_left {c : Prop} [Decidable c] {s t : String} :
    (s ∈ if c then ([] : List String) else [t]) ↔ (¬ c ∧ s = t) := by
  split_ifs with h <;> simp [h]

theorem mem_ite_nil_right {c : Prop} [Decidable c] {s t : String} :
    (s ∈ if c then [t] else ([] : List String)) ↔ (c ∧ s = t) := by
  split_ifs with h <;> simp [h]

theorem mem_length_hint_chain {n : Nat} {s t : String} :
    (s ∈ if 12 ≤ n then ([] : List String)
      else if 8 ≤ n then [] else if 6 ≤ n then [] else [t])
      ↔ (n < 6 ∧ s = t) := by
  split_ifs with h1 h2 h3
  · exact ⟨fun h => absurd h (List.not_mem_nil s), fun ⟨hn, _⟩ => absurd hn (by omega)⟩
  · exact ⟨fun h => absurd h (List.not_mem_nil s), fun ⟨hn, _⟩ => absurd hn (by omega)⟩
  · exact ⟨fun h => absurd h (List.not_mem_nil s), fun ⟨hn, _⟩ => absurd hn (by omega)⟩
  · simp only [List.mem_singleton]
    exact ⟨fun h => ⟨by omega, h⟩, fun ⟨_, h⟩ => h⟩

/-- Membership in the feedback array: a hint appears exactly when its
push condition held. -/
theorem mem_feedback_iff (p : List Char) (s : String) :
    s ∈ strengthFeedback p ↔
      ((p.length < 6 ∧ s = "Password should be at least 8 characters long")
       ∨ (hasLower p = false ∧ s = "Add lowercase letters")
       ∨ (hasUpper p = false ∧ s = "Add uppercase letters")
       ∨ (hasDigit p = false ∧ s = "Add numbers")
       ∨ (hasSpecial p = false ∧ s = "Add special characters")
       ∨ (hasTripleRepeat p = true ∧ s = "Avoid repeating characters")
       ∨ (hasCommonSeq p = true ∧ s = "Avoid common sequences")) := by
  unfold strengthFeedback
  simp only [List.mem_append]
  rw [mem_length_hint_chain, mem_ite_nil_left, mem_ite_nil_left, mem_ite_nil_left,
    mem_ite_nil_left, mem_ite_nil_right, mem_ite_nil_right]
  simp only [Bool.not_eq_true]
  tauto

theorem feedback_length_hint (p : List Char) :
    "Password should be at least 8 characters long" ∈ (calculateStrength p).feedback
      ↔ p.length < 6 := by
  rw [show (calculateStrength p).feedback = strengthFeedback p from rfl,
    mem_feedback_iff]
  constructor
  · rintro (⟨h, -⟩ | ⟨-, h⟩ | ⟨-, h⟩ | ⟨-, h⟩ | ⟨-, h⟩ | ⟨-, h⟩ | ⟨-, h⟩)
    · exact h
    all_goals exact absurd h (by decide)
  · intro h
    exact Or.inl ⟨h, rfl⟩

theorem feedback_add_lower (p : List Char) :
    "Add lowercase letters" ∈ (calculateStrength p).feedback ↔ hasLower p = false := by
  rw [show (calculateStrength p).feedback = strengthFeedback p from rfl,
    mem_feedback_iff]
  constructor
  · rintro (⟨-, h⟩ | ⟨h, -⟩ | ⟨-, h⟩ | ⟨-, h⟩ | ⟨-, h⟩ | ⟨-, h⟩ | ⟨-, h⟩)
    · exact absurd h (by decide)
    · exact h
    all_goals exact absurd h (by decide)
  · intro h
    exact Or.inr (Or.inl ⟨h, rfl⟩)

theorem feedback_add_upper (p : List Char) :
    "Add uppercase letters" ∈ (calculateStrength p).feedback ↔ hasUpper p = false := by
  rw [show (calculateStrength p).feedback = strengthFeedback p from rfl,
    mem_feedback_iff]
  constructor
  · rintro (⟨-, h⟩ | ⟨-, h⟩ | ⟨h, -⟩ | ⟨-, h⟩ | ⟨-, h⟩ | ⟨-, h⟩ | ⟨-, h⟩)
    · exact absurd h (by decide)
    · exact absurd h (by decide)
    · exact h
    all_goals exact absurd h (by decide)
  · intro h
    exact Or.inr (Or.inr (Or.inl ⟨h, rfl⟩))

theorem feedback_add_numbers (p : List Char) :
    "Add numbers" ∈ (calculateStrength p).feedback ↔ hasDigit p = false := by
  rw [show (calculateStrength p).feedback = strengthFeedback p from rfl,
    mem_feedback_iff]
  constructor
  · rintro (⟨-, h⟩ | ⟨-, h⟩ | ⟨-, h⟩ | ⟨h, -⟩ | ⟨-, h⟩ | ⟨-, h⟩ | ⟨-, h⟩)
    · exact absurd h (by decide)
    · exact absurd h (by decide)
    · exact absurd h (by decide)
    · exact h
    all_goals exact absurd h (by decide)
  · intro h
    exact Or.inr (Or.inr (Or.inr (Or.inl ⟨h, rfl⟩)))

theorem feedback_add_special (p : List Char) :
    "Add special characters" ∈ (calculateStrength p).feedback
      ↔ hasSpecial p = false := by
  rw [show (calculateStrength p).feedback = strengthFeedback p from rfl,
    mem_feedback_iff]
  constructor
  · rintro (⟨-, h⟩ | ⟨-, h⟩ | ⟨-, h⟩ | ⟨-, h⟩ | ⟨h, -⟩ | ⟨-, h⟩ | ⟨-, h⟩)
    · exact absurd h (by decide)
    · exact absurd h (by decide)
    · exact absurd h (by decide)
    · exact absurd h (by decide)
    · exact h
    all_goals exact absurd h (by decide)
  · intro h
    exact Or.inr (Or.inr (Or.inr (Or.inr (Or.inl ⟨h, rfl⟩))))

theorem feedback_avoid_repeat (p : List Char) :
    "Avoid repeating characters" ∈ (calculateStrength p).feedback
      ↔ hasTripleRepeat p = true := by
  rw [show (calculateStrength p).feedback = strengthFeedback p from rfl,
    mem_feedback_iff]
  constructor
  · rintro (⟨-, h⟩ | ⟨-, h⟩ | ⟨-, h⟩ | ⟨-, h⟩ | ⟨-, h⟩ | ⟨h, -⟩ | ⟨-, h⟩)
    · exact absurd h (by decide)
    · exact absurd h (by decide)
    · exact absurd h (by decide)
    · exact absurd h (by decide)
    · exact absurd h (by decide)
    · exact h
    · exact absurd h (by decide)
  · intro h
    exact Or.inr (Or.inr (Or.inr (Or.inr (Or.inr (Or.inl ⟨h, rfl⟩)))))

theorem feedback_avoid_seq (p : List Char) :
    "Avoid common sequences" ∈ (calculateStrength p).feedback
      ↔ hasCommonSeq p = true := by
  rw [show (calculateStrength p).feedback = strengthFeedback p from rfl,
    mem_feedback_iff]
  constructor
  · rintro (⟨-, h⟩ | ⟨-, h⟩ | ⟨-, h⟩ | ⟨-, h⟩ | ⟨-, h⟩ | ⟨-, h⟩ | ⟨h, -⟩)
    · exact absurd h (by decide)
    · exact absurd h (by decide)
    · exact absurd h (by decide)
    · exact absurd h (by decide)
    · exact absurd h (by decide)
    · exact absurd h (by decide)
    · exact h
  · intro h
    exact Or.inr (Or.inr (Or.inr (Or.inr (Or.inr (Or.inr ⟨h, rfl⟩)))))

/-- C3 counterexample: on three spaces the returned score is the clamped 0
while the claim's unclamped sum is -10, and on six newlines the code
scores 10 — the regex dot does not match a line terminator, so no repeat
penalty applies — while the claim's sum is 10 - 10 = 0. -/
theorem calculateStrength_formula_counterexample :
    (calculateStrength "   ".data).score = 0
    ∧ claimedScore "   ".data = -10
    ∧ (calculateStrength "\n\n\n\n\n\n".data).score = 10
    ∧ claimedScore "\n\n\n\n\n\n".data = 0 := by
  refine ⟨?_, ?_, ?_, ?_⟩ <;> decide

/-- C3 (amended: the repeat penalty applies only when the repeated
character is not a line terminator — the regex dot — and the resulting sum
is clamped below at 0): for every input string the returned score is the
clamp at 0 of the sum of the length term (+25 if length ≥ 12, else +15 if
≥ 8, else +10 if ≥ 6, else +0 with the length feedback hint), +15 for
each of lowercase, uppercase and digit presence, +20 for presence of a
core-or-extended punctuation character (with the corresponding "Add ..."
feedback for each absent class), -10 for a non-line-terminator character
repeated three or more times consecutively and -15 for a case-insensitive
occurrence of "123", "abc" or "qwe"; each presence and penalty test
coincides with its mathematical characterisation; the length hint appears
in the feedback exactly when length < 6, each "Add ..." hint exactly when
the corresponding class is absent, and each "Avoid ..." hint exactly when
its penalty fired; and `calculateStrength("Aa1!Aa1!Aa1!")` scores 90 with
level "Very Strong". -/
theorem calculateStrength_score_formula :
    (∀ p : List Char,
      (calculateStrength p).score = max 0 (strengthScoreRaw p)
      ∧ (hasLower p = true ↔ ∃ c ∈ p, 'a' ≤ c ∧ c ≤ 'z')
      ∧ (hasUpper p = true ↔ ∃ c ∈ p, 'A' ≤ c ∧ c ≤ 'Z')
      ∧ (hasDigit p = true ↔ ∃ c ∈ p, '0' ≤ c ∧ c ≤ '9')
      ∧ (hasSpecial p = true ↔ ∃ c ∈ p, c ∈ SPECIAL_CLASS)
      ∧ (hasTripleRepeat p = true ↔
          ∃ c pre suf, jsDot c = true ∧ p = pre ++ c :: c :: c :: suf)
      ∧ (hasCommonSeq p = true ↔
          ("123".data <:+: p.map asciiLower ∨ "abc".data <:+: p.map asciiLower ∨
            "qwe".data <:+: p.map asciiLower))
      ∧ ("Password should be at least 8 characters long" ∈
          (calculateStrength p).feedback ↔ p.length < 6)
      ∧ ("Add lowercase letters" ∈ (calculateStrength p).feedback ↔
          hasLower p = false)
      ∧ ("Add uppercase letters" ∈ (calculateStrength p).feedback ↔
          hasUpper p = false)
      ∧ ("Add numbers" ∈ (calculateStrength p).feedback ↔ hasDigit p = false)
      ∧ ("Add special characters" ∈ (calculateStrength p).feedback ↔
          hasSpecial p = false)
      ∧ ("Avoid repeating characters" ∈ (calculateStrength p).feedback ↔
          hasTripleRepeat p = true)
      ∧ ("Avoid common sequences" ∈ (calculateStrength p).feedback ↔
          hasCommonSeq p = true))
    ∧ (calculateStrength "Aa1!Aa1!Aa1!".data).score = 90
    ∧ (calculateStrength "Aa1!Aa1!Aa1!".data).level = "Very Strong" := by
  refine ⟨fun p => ⟨rfl, hasLower_iff p, hasUpper_iff p, hasDigit_iff p,
    hasSpecial_iff p, hasTripleRepeat_iff p, hasCommonSeq_iff p,
    feedback_length_hint p, feedback_add_lower p, feedback_add_upper p,
    feedback_add_numbers p, feedback_add_special p, feedback_avoid_repeat p,
    feedback_avoid_seq p⟩, by decide, by decide⟩

/-- C4: the level is determined from the returned (clamped) score by the
thresholds checked from highest: ≥90 Very Strong, ≥75 Strong, ≥60 Good,
≥40 Fair, ≥20 Weak, else Very Weak. -/
theorem calculateStrength_level_thresholds (p : List Char) :
    (calculateStrength p).level = levelOf ((calculateStrength p).score) := by
  show levelOf (strengthScoreRaw p) = levelOf (max 0 (strengthScoreRaw p))
  exact levelOf_clamp _

/-- C8: `calculateStrength` is total (a Lean function defined on every
list of characters) with an integer score in `[0, 90]`, and on the empty
string it returns score 0, level Very Weak, and exactly the length hint
followed by the four Add hints. -/
theorem calculateStrength_total_bounds :
    (∀ p : List Char,
      0 ≤ (calculateStrength p).score ∧ (calculateStrength p).score ≤ 90)
    ∧ calculateStrength [] =
        { score := 0, level := "Very Weak",
          feedback := ["Password should be at least 8 characters long",
            "Add lowercase letters", "Add uppercase letters", "Add numbers",
            "Add special characters"] } := by
  refine ⟨fun p => ⟨le_max_left _ _, ?_⟩, by decide⟩
  rw [calculateStrength_score_spec]
  exact max_le (by norm_num) (strengthScoreRaw_le_90 p)

/-- C9: saving to history prepends the new entry (newest first) and
truncates the history to at most 100 entries, dropping the oldest beyond
the cap. -/
theorem saveToHistory_newest_first_capped (e : HistoryEntry) (h : List HistoryEntry) :
    (saveToHistory e h).head? = some e
    ∧ (saveToHistory e h).length = min 100 (h.length + 1)
    ∧ (saveToHistory e h).length ≤ 100
    ∧ saveToHistory e h = (e :: h).take 100 := by
  refine ⟨?_, ?_, ?_, rfl⟩
  · show ((e :: h).take 100).head? = some e
    rw [show (100 : Nat) = 99 + 1 from rfl, List.take_succ_cons]
    rfl
  · show ((e :: h).take 100).length = min 100 (h.length + 1)
    rw [List.length_take]
    simp
  · show ((e :: h).take 100).length ≤ 100
    rw [List.length_take]
    omega

/-- C10: passwords of length at most 4 are fully masked as four bullet
characters; longer passwords keep exactly their first two and last two
characters with every character in between replaced by a bullet, so the
masked string has the same length as the password. -/
theorem maskPassword_spec (p : List Char) :
    (p.length ≤ 4 → maskPassword p = List.replicate 4 bulletChar)
    ∧ (4 < p.length →
        (maskPassword p).length = p.length
        ∧ (maskPassword p).take 2 = p.take 2
        ∧ (maskPassword p).drop (p.length - 2) = p.drop (p.length - 2)
        ∧ ((maskPassword p).drop 2).take (p.length - 4) =
            List.replicate (p.length - 4) bulletChar) := by
  constructor
  · intro h
    unfold maskPassword
    rw [if_pos h]
  · intro h
    have hnle : ¬ p.length ≤ 4 := by omega
    have hA : (p.take 2).length = 2 := by
      rw [List.length_take]
      omega
    have hR : (List.replicate (p.length - 4) bulletChar).length = p.length - 4 :=
      List.length_replicate _ _
    have hmask : maskPassword p =
        p.take 2 ++ (List.replicate (p.length - 4) bulletChar
          ++ p.drop (p.length - 2)) := by
      unfold maskPassword
      rw [if_neg hnle, List.append_assoc]
    have hAR : (p.take 2 ++ List.replicate (p.length - 4) bulletChar).length
        = p.length - 2 := by
      rw [List.length_append, hA, hR]
      omega
    have hmask2 : maskPassword p =
        (p.take 2 ++ List.replicate (p.length - 4) bulletChar)
          ++ p.drop (p.length - 2) := by
      unfold maskPassword
      rw [if_neg hnle]
    refine ⟨?_, ?_, ?_, ?_⟩
    · rw [hmask2, List.length_append, hAR, List.length_drop]
      omega
    · rw [hmask, List.take_left' hA]
    · rw [hmask2, List.drop_left' hAR]
    · rw [hmask, List.drop_left' hA, List.take_left' hR]

/-- Witness for C10's theorem at `"abcdef"` (length 6) and `"abc"`
(length 3). -/
theorem maskPassword_spec_witness :
    maskPassword "abc".data = List.replicate 4 bulletChar
    ∧ (maskPassword "abcdef".data).length = ("abcdef".data).length
    ∧ (maskPassword "abcdef".data).take 2 = ("abcdef".data).take 2 := by
  have h6 := (maskPassword_spec "abcdef".data).2 (by decide)
  exact ⟨(maskPassword_spec "abc".data).1 (by decide), h6.1, h6.2.1⟩
